import Mathlib

/-!
Verification of the Loandoc-Pro analysis-result core: the result normalizer
(`analyzeLoanDocument` in `src/services/geminiService.ts`), the confidence and
readiness classifiers (`getScoreMeta`, `getReadinessColorPill` in
`src/components/AnalysisReport.tsx`) and the covenant slack calculator
(`calculateSlack` in `src/components/AnalysisReport.tsx`).

Modelling conventions:
* JavaScript numbers are modelled as exact rationals (`ℚ`); the claims under
  study concern exact decimal arithmetic, polarity and sign tests, none of
  which depend on binary rounding.  `NaN` and the infinities that arise from
  a zero denominator are represented explicitly by the `JsNum` type.
* A loosely typed JSON payload field that may be absent (JavaScript
  `undefined`) is modelled as an `Option`; a top-level section that is absent
  or not of the shape the normalizer dereferences is modelled as `none`.
  Accessing `.map` or a property of such a value throws in JavaScript; the
  surrounding `try`/`catch` converts the throw into the single generic
  failure message, which the embedding models as `Except.error`.
* `parseFloat` is modelled on decimal literals: optional leading whitespace,
  optional sign, digits with an optional fraction part and an optional
  exponent part, reading the longest valid prefix and ignoring trailing
  characters; no valid prefix gives `none` (JavaScript `NaN`).  The
  `Infinity` literal, which no claim exercises, is outside the model.
-/

namespace LoandocPro

/-! ## Data model (`src/types.ts` and the raw payload shape of
`src/services/geminiService.ts`) -/

/-- Structure `DocumentOverview` from `src/types.ts`. -/
structure DocumentOverview where
  facilityType : String
  borrowerLender : String
  currency : String
  amount : String
  maturity : String
  law : String

/-- One entry of the raw `clauses` array of the intelligence payload
(`responseSchema` in `src/services/geminiService.ts`). `lma_benchmark_context`
and `potential_impact` are the two fields the normalizer defaults when they
are absent or empty. -/
structure RawClause where
  clause_name : String
  extracted_text : String
  confidence_score : Int
  market_deviation : String
  review_required : Bool
  explanation : String
  lma_benchmark_context : Option String
  potential_impact : Option String

/-- The raw `riskAssessment` section: `overallRating` is an arbitrary string
that may be absent (`none`) or empty, both falsy in JavaScript. -/
structure RawRiskAssessment where
  overallRating : Option String
  summary : String

/-- Structure `DealReadiness` from `src/types.ts`; the raw payload section has the same
shape and is passed through by the normalizer. -/
structure DealReadiness where
  score : Int
  status : String
  driversPositive : List String
  driversNegative : List String
  keyIssues : List String
  recommendedActions : List String

/-- Structure `CommercialSummary` from `src/types.ts`. -/
structure CommercialSummary where
  snapshot : String
  highlights : List String
  risks : List String
  nextActions : List String

/-- The parsed JSON payload handed to the normalization step.  Each top-level
section is `none` when it is absent from the JSON (or not of the shape the
normalizer's property accesses expect). -/
structure RawPayload where
  overview : Option DocumentOverview
  clauses : Option (List RawClause)
  dealReadiness : Option DealReadiness
  riskAssessment : Option RawRiskAssessment
  commercialSummary : Option CommercialSummary

/-- The benchmark sub-record built by the normalizer (`lmaComparison`). -/
structure LmaComparison where
  standardBenchmark : String
  deviations : String
  impact : String

/-- Structure `ClauseAnalysis` from `src/types.ts`, as actually constructed by the
normalizer (the `lmaComparison` record is always built). -/
structure ClauseAnalysis where
  name : String
  summary : String
  confidenceScore : Int
  reviewRequired : Bool
  reason : String
  lmaComparison : LmaComparison

/-- Structure `RiskAssessment` as constructed at runtime: the `as any` cast in the
source lets any string through, so the field is a `String`, not an enum. -/
structure RiskAssessment where
  overallRating : String
  summary : String

/-- Structure `AnalysisResult` as actually constructed by `analyzeLoanDocument`:
`overview`, `commercialSummary` and `dealReadiness` are copied from the raw
payload without any check, so they are `undefined` (here `none`) whenever the
corresponding raw section is. -/
structure AnalysisResult where
  overview : Option DocumentOverview
  confidenceAnalysis : List ClauseAnalysis
  riskAssessment : RiskAssessment
  commercialSummary : Option CommercialSummary
  dealReadiness : Option DealReadiness
  rawText : String

/-! ## Result normalizer (`analyzeLoanDocument`, geminiService.ts lines 104-131) -/

/-- JavaScript `v || d` on an optional string: `undefined` and the empty
string are falsy and give the default. -/
def jsOrDefault (v : Option String) (d : String) : String :=
  match v with
  | none => d
  | some s => if s = "" then d else s

/-- The clause mapping of geminiService.ts lines 108-119, field for field. -/
def normClause (c : RawClause) : ClauseAnalysis :=
  { name := c.clause_name
    summary := c.extracted_text
    confidenceScore := c.confidence_score
    reviewRequired := c.review_required
    reason := c.explanation
    lmaComparison :=
      { standardBenchmark := jsOrDefault c.lma_benchmark_context "Market standard position."
        deviations := c.market_deviation
        impact := jsOrDefault c.potential_impact "Review required for specific commercial impact." } }

/-- The message of the `Error` thrown by the `catch` block (line 130). -/
def analysisFailureMsg : String :=
  "Failed to analyze document. The institutional logic engine encountered an error."

/-- The normalization step of `analyzeLoanDocument` (lines 104-131).
Evaluating the result object dereferences `data.clauses.map` and
`data.riskAssessment.overallRating`, so a missing (or unusable) `clauses` or
`riskAssessment` section throws and is caught, producing the generic failure;
`overview`, `commercialSummary` and `dealReadiness` are never checked and are
copied through even when absent. -/
def analyzeLoanDocument (data : RawPayload) (text : String) : Except String AnalysisResult :=
  match data.clauses with
  | none => .error analysisFailureMsg
  | some cs =>
    match data.riskAssessment with
    | none => .error analysisFailureMsg
    | some ra =>
      .ok { overview := data.overview
            confidenceAnalysis := cs.map normClause
            riskAssessment :=
              { overallRating := jsOrDefault ra.overallRating "Medium"
                summary := ra.summary }
            commercialSummary := data.commercialSummary
            dealReadiness := data.dealReadiness
            rawText := text }

/-- Returns `true` iff the normalization produced a result. -/
def isOkE (e : Except String AnalysisResult) : Bool :=
  match e with
  | .ok _ => true
  | .error _ => false

/-! ## Confidence and readiness classifiers (AnalysisReport.tsx lines 34-62) -/

/-- The record returned by `getScoreMeta`. -/
structure ScoreMeta where
  label : String
  text : String
  bg : String
  border : String
  accent : String

/-- Function `getScoreMeta` (AnalysisReport.tsx lines 34-56), verbatim. -/
def getScoreMeta (score : Int) : ScoreMeta :=
  if score ≥ 85 then
    { label := "High Confidence"
      text := "text-emerald-700"
      bg := "bg-emerald-50"
      border := "border-emerald-100"
      accent := "border-emerald-500" }
  else if score ≥ 70 then
    { label := "Moderate Review"
      text := "text-amber-700"
      bg := "bg-amber-50"
      border := "border-amber-100"
      accent := "border-amber-500" }
  else
    { label := "Critical / Low Confidence"
      text := "text-rose-700"
      bg := "bg-rose-50"
      border := "border-rose-100"
      accent := "border-rose-500" }

/-- Function `getReadinessColorPill` (AnalysisReport.tsx lines 58-62): the only part of
the deal-readiness display that is recomputed from the numeric score; the
status label itself is `result.dealReadiness.status` rendered directly
(line 258). -/
def getReadinessColorPill (score : Int) : String :=
  if score ≥ 85 then "text-emerald-600 bg-white border-emerald-300 shadow-sm"
  else if score ≥ 70 then "text-amber-600 bg-white border-amber-300 shadow-sm"
  else "text-rose-600 bg-white border-rose-300 shadow-sm"

/-! ## A model of `parseFloat` on decimal literals -/

/-- Whitespace skipped by `parseFloat` before the number. -/
def isWsChar (c : Char) : Bool :=
  c == ' ' || c == '\t' || c == '\n' || c == '\r'

/-- Characters that can never extend a decimal literal in any parser state:
not a digit, not the decimal point, not an exponent marker, not a sign. -/
def isStopper (c : Char) : Bool :=
  !c.isDigit && c != '.' && c != 'e' && c != 'E' && c != '+' && c != '-'

/-- Numeric value of a decimal digit character. -/
def digitVal (c : Char) : Nat := c.toNat - 48

/-- Value of a digit string read in base 10. -/
def digitsToNat (ds : List Char) : Nat :=
  ds.foldl (fun n c => 10 * n + digitVal c) 0

/-- Exact value of the literal `ip.fp` (integer part, fraction part). -/
def decValue (ip fp : List Char) : ℚ :=
  (digitsToNat (ip ++ fp) : ℚ) / 10 ^ fp.length

/-- Scale a mantissa by a signed power of ten. -/
def applyExp (q : ℚ) (e : Int) : ℚ :=
  if 0 ≤ e then q * 10 ^ e.toNat else q / 10 ^ (-e).toNat

/-- Read an optional exponent part `eN`/`E±N`; when the marker is not
followed by at least one digit the marker is not consumed (exponent 0). -/
def parseExp (cs : List Char) : Int × List Char :=
  match cs with
  | [] => (0, [])
  | c :: rest =>
    if c = 'e' ∨ c = 'E' then
      match rest with
      | [] => (0, cs)
      | s :: rest2 =>
        if s = '+' then
          let ds := rest2.takeWhile Char.isDigit
          if ds.isEmpty then (0, cs)
          else ((digitsToNat ds : Int), rest2.dropWhile Char.isDigit)
        else if s = '-' then
          let ds := rest2.takeWhile Char.isDigit
          if ds.isEmpty then (0, cs)
          else (-(digitsToNat ds : Int), rest2.dropWhile Char.isDigit)
        else
          let ds := rest.takeWhile Char.isDigit
          if ds.isEmpty then (0, cs)
          else ((digitsToNat ds : Int), rest.dropWhile Char.isDigit)
    else (0, cs)

/-- Split an optional fraction part `.digits` off the input. -/
def fracSplit (r1 : List Char) : List Char × List Char :=
  match r1 with
  | [] => ([], [])
  | c :: rest =>
    if c = '.' then (rest.takeWhile Char.isDigit, rest.dropWhile Char.isDigit)
    else ([], c :: rest)

/-- Read an unsigned decimal literal from the head of the input; `none` when
there is no digit before or after the decimal point. -/
def parseUnsigned (cs : List Char) : Option ℚ :=
  if (cs.takeWhile Char.isDigit).isEmpty && (fracSplit (cs.dropWhile Char.isDigit)).1.isEmpty then
    none
  else
    some (applyExp
      (decValue (cs.takeWhile Char.isDigit) (fracSplit (cs.dropWhile Char.isDigit)).1)
      (parseExp (fracSplit (cs.dropWhile Char.isDigit)).2).1)

/-- Read an optional sign followed by an unsigned literal. -/
def parseSigned (cs : List Char) : Option ℚ :=
  match cs with
  | [] => parseUnsigned []
  | c :: rest =>
    if c = '+' then parseUnsigned rest
    else if c = '-' then (parseUnsigned rest).map Neg.neg
    else parseUnsigned (c :: rest)

/-- Model of JavaScript `parseFloat` on decimal literals: skip leading
whitespace, read the longest valid signed decimal prefix, ignore the rest;
`none` models `NaN`. -/
def parseFloat (s : String) : Option ℚ :=
  parseSigned (s.data.dropWhile isWsChar)

/-! ## Covenant slack calculator (AnalysisReport.tsx lines 161-172) -/

/-- A JavaScript number that may be infinite or `NaN`, as produced by a
division whose denominator is zero. -/
inductive JsNum where
  | finite (q : ℚ)
  | posInf
  | negInf
  | nan
deriving DecidableEq

/-- JavaScript division on finite operands: a zero denominator gives `NaN`
for a zero numerator and a signed infinity otherwise. -/
def jsDiv (a b : ℚ) : JsNum :=
  if b = 0 then
    if a = 0 then .nan else if 0 < a then .posInf else .negInf
  else .finite (a / b)

/-- Multiplication by the positive constant 100, extended to `JsNum`. -/
def jsMul100 : JsNum → JsNum
  | .finite q => .finite (q * 100)
  | .posInf => .posInf
  | .negInf => .negInf
  | .nan => .nan

/-- JavaScript `String.prototype.includes` on character lists: does `pat`
occur at the head of `hay`? -/
def startsWithL : List Char → List Char → Bool
  | _, [] => true
  | [], _ :: _ => false
  | c :: t, p :: ps => c == p && startsWithL t ps

/-- Does `pat` occur anywhere in `hay`? -/
def hasSubstrL (hay pat : List Char) : Bool :=
  match hay with
  | [] => startsWithL [] pat
  | c :: t => startsWithL (c :: t) pat || hasSubstrL t pat

/-- JavaScript `s.includes(sub)`. -/
def jsIncludes (s sub : String) : Bool :=
  hasSubstrL s.data sub.data

/-- JavaScript `s.toLowerCase()`, modelled character by character (the
ASCII range, the only one the heuristics compare against, is handled
identically by both). -/
def jsToLowerCase (s : String) : String :=
  ⟨s.data.map Char.toLower⟩

/-- The polarity heuristic of `calculateSlack` (line 167):
`name.toLowerCase().includes('leverage') || name.toLowerCase().includes('debt')`. -/
def isMaxName (name : String) : Bool :=
  jsIncludes (jsToLowerCase name) "leverage" || jsIncludes (jsToLowerCase name) "debt"

/-- The record returned by `calculateSlack` (line 171). -/
structure SlackCalculation where
  slack : ℚ
  percentage : JsNum
  isSafe : Bool
  isMax : Bool
deriving DecidableEq

/-- Function `calculateSlack` (AnalysisReport.tsx lines 161-172): parse both inputs,
return `null` (`none`) when either is `NaN`; otherwise derive the polarity
from the clause name and compute slack, percentage and the safety flag. -/
def calculateSlack (limitStr actualStr name : String) : Option SlackCalculation :=
  match parseFloat limitStr, parseFloat actualStr with
  | some limit, some actual =>
    let isMax := isMaxName name
    let slack := if isMax then limit - actual else actual - limit
    let percentage := if isMax then jsMul100 (jsDiv slack limit) else jsMul100 (jsDiv slack actual)
    some { slack := slack, percentage := percentage, isSafe := decide (slack ≥ 0), isMax := isMax }
  | _, _ => none

/-! ## Sample payload data used to instantiate the general theorems -/

/-- A concrete overview section. -/
def cexOverview : DocumentOverview :=
  { facilityType := "Term Loan"
    borrowerLender := "Acme Industries / First Bank"
    currency := "EUR"
    amount := "100,000,000"
    maturity := "2030"
    law := "English" }

/-- A raw clause scored below the 75-point review threshold with a
`Standard` market deviation whose supplied `review_required` flag is
`false`. -/
def cexClause : RawClause :=
  { clause_name := "Financial Covenants"
    extracted_text := "Leverage not to exceed 3.5x EBITDA."
    confidence_score := 60
    market_deviation := "Standard"
    review_required := false
    explanation := "Clear drafting."
    lma_benchmark_context := none
    potential_impact := none }

/-- A concrete risk-assessment section with a recognized rating. -/
def cexRisk : RawRiskAssessment := { overallRating := some "Low", summary := "Limited risk." }

/-- A concrete commercial-summary section. -/
def cexCommercial : CommercialSummary :=
  { snapshot := "Standard deal.", highlights := [], risks := [], nextActions := [] }

/-- A deal-readiness section with score 90 and a caller-chosen status. -/
def cexReadiness (status : String) : DealReadiness :=
  { score := 90
    status := status
    driversPositive := []
    driversNegative := []
    keyIssues := []
    recommendedActions := [] }

/-- A full payload carrying `cexClause`. -/
def payloadC1 : RawPayload :=
  { overview := some cexOverview
    clauses := some [cexClause]
    dealReadiness := some (cexReadiness "Ready with Review")
    riskAssessment := some cexRisk
    commercialSummary := some cexCommercial }

/-- A full payload whose readiness status string is chosen by the caller
while the score stays fixed at 90. -/
def payloadC2 (status : String) : RawPayload :=
  { overview := some cexOverview
    clauses := some []
    dealReadiness := some (cexReadiness status)
    riskAssessment := some cexRisk
    commercialSummary := some cexCommercial }

/-- A payload that is complete except for the `dealReadiness` section. -/
def payloadNoDR : RawPayload :=
  { overview := some cexOverview
    clauses := some [cexClause]
    dealReadiness := none
    riskAssessment := some cexRisk
    commercialSummary := some cexCommercial }

/-- A full payload whose `overallRating` is the unrecognized non-empty
string `"Severe"`. -/
def payloadSevere : RawPayload :=
  { overview := some cexOverview
    clauses := some []
    dealReadiness := some (cexReadiness "Ready with Review")
    riskAssessment := some { overallRating := some "Severe", summary := "High risk." }
    commercialSummary := some cexCommercial }

/-! ## Helper lemmas -/

/-- Multiplying a finite JavaScript quotient by 100. -/
theorem jsMul100_jsDiv {a b : ℚ} (hb : b ≠ 0) :
    jsMul100 (jsDiv a b) = JsNum.finite (a / b * 100) := by
  simp [jsDiv, jsMul100, hb]

/-- A JavaScript quotient with zero denominator, scaled by 100, is an
infinity or `NaN`. -/
theorem jsMul100_jsDiv_zero (a : ℚ) :
    jsMul100 (jsDiv a 0) = JsNum.posInf ∨ jsMul100 (jsDiv a 0) = JsNum.negInf ∨
      jsMul100 (jsDiv a 0) = JsNum.nan := by
  by_cases h1 : a = 0
  · simp [jsDiv, jsMul100, h1]
  · by_cases h2 : 0 < a <;> simp [jsDiv, jsMul100, h1, h2]

/-- Behaviour of `takeWhile`/`dropWhile` across a satisfying prefix followed by a
failing character. -/
theorem takeWhile_app_stop (P : Char → Bool) (ds : List Char) (c : Char) (t : List Char)
    (h : ∀ x ∈ ds, P x = true) (hc : P c = false) :
    (ds ++ c :: t).takeWhile P = ds ∧ (ds ++ c :: t).dropWhile P = c :: t := by
  induction ds with
  | nil => simp [List.takeWhile_cons, List.dropWhile_cons, hc]
  | cons d ds ih =>
    have hd : P d = true := h d (List.mem_cons_self d ds)
    have ih2 := ih (fun x hx => h x (List.mem_cons_of_mem d hx))
    simp [List.takeWhile_cons, List.dropWhile_cons, hd, ih2.1, ih2.2]

/-- Behaviour of `takeWhile`/`dropWhile` on a list every element of which satisfies the
predicate. -/
theorem takeWhile_all (P : Char → Bool) (ds : List Char) (h : ∀ x ∈ ds, P x = true) :
    ds.takeWhile P = ds ∧ ds.dropWhile P = [] := by
  induction ds with
  | nil => simp
  | cons d ds ih =>
    have hd : P d = true := h d (List.mem_cons_self d ds)
    have ih2 := ih (fun x hx => h x (List.mem_cons_of_mem d hx))
    simp [List.takeWhile_cons, List.dropWhile_cons, hd, ih2.1, ih2.2]

/-- Unpacking the stopper predicate. -/
theorem isStopper_spec {c : Char} (h : isStopper c = true) :
    c.isDigit = false ∧ c ≠ '.' ∧ c ≠ 'e' ∧ c ≠ 'E' ∧ c ≠ '+' ∧ c ≠ '-' := by
  simp only [isStopper, Bool.and_eq_true, Bool.not_eq_true', bne_iff_ne] at h
  exact ⟨h.1.1.1.1.1, h.1.1.1.1.2, h.1.1.1.2, h.1.1.2, h.1.2, h.2⟩

/-- A digit character is not skipped as whitespace. -/
theorem digit_not_ws {c : Char} (h : c.isDigit = true) : isWsChar c = false := by
  by_contra hw
  rw [Bool.not_eq_false] at hw
  simp only [isWsChar, Bool.or_eq_true, beq_iff_eq] at hw
  rcases hw with ((rfl | rfl) | rfl) | rfl <;> exact absurd h (by decide)

/-- A digit character is not the plus sign. -/
theorem digit_ne_plus {c : Char} (h : c.isDigit = true) : c ≠ '+' := by
  intro hc; subst hc; exact absurd h (by decide)

/-- A digit character is not the minus sign. -/
theorem digit_ne_minus {c : Char} (h : c.isDigit = true) : c ≠ '-' := by
  intro hc; subst hc; exact absurd h (by decide)

/-- The decimal point is not a digit. -/
theorem dot_not_digit : Char.isDigit '.' = false := by decide

/-- Applying `applyExp` with exponent zero is the identity. -/
theorem applyExp_zero (q : ℚ) : applyExp q 0 = q := by
  simp [applyExp]

/-- Reading `parseExp` consumes nothing and yields exponent `0` on an empty input or
one that starts with a stopper character. -/
theorem parseExp_stopper (t : List Char) (h : ∀ c ∈ t, isStopper c = true) :
    (parseExp t).1 = 0 := by
  cases t with
  | nil => rfl
  | cons c0 t' =>
    have hs := isStopper_spec (h c0 (List.mem_cons_self c0 t'))
    show ((if c0 = 'e' ∨ c0 = 'E' then _ else ((0 : Int), c0 :: t')) : Int × List Char).1 = 0
    rw [if_neg (not_or.mpr ⟨hs.2.2.1, hs.2.2.2.1⟩)]

/-- Evaluating `parseUnsigned` on a decimal literal `ip.fp` followed by stopper
characters reads exactly the literal's value. -/
theorem parseUnsigned_decimal (ip fp t : List Char)
    (h1 : ip ≠ []) (h2 : ∀ c ∈ ip, c.isDigit = true) (h3 : ∀ c ∈ fp, c.isDigit = true)
    (h4 : ∀ c ∈ t, isStopper c = true) :
    parseUnsigned (ip ++ '.' :: (fp ++ t)) = some (decValue ip fp) := by
  obtain ⟨htake, hdrop⟩ := takeWhile_app_stop Char.isDigit ip '.' (fp ++ t) h2 dot_not_digit
  have hfs : fracSplit ('.' :: (fp ++ t)) = (fp, t) := by
    show (if ('.' : Char) = '.' then
        ((fp ++ t).takeWhile Char.isDigit, (fp ++ t).dropWhile Char.isDigit)
      else ([], '.' :: (fp ++ t))) = (fp, t)
    rw [if_pos rfl]
    cases t with
    | nil =>
      obtain ⟨ht, hd⟩ := takeWhile_all Char.isDigit fp h3
      simp only [List.append_nil, ht, hd]
    | cons c0 t' =>
      have hc0 : Char.isDigit c0 = false :=
        (isStopper_spec (h4 c0 (List.mem_cons_self c0 t'))).1
      obtain ⟨ht, hd⟩ := takeWhile_app_stop Char.isDigit fp c0 t' h3 hc0
      simp only [ht, hd]
  have hie : ip.isEmpty = false := by
    cases ip with
    | nil => exact absurd rfl h1
    | cons _ _ => rfl
  unfold parseUnsigned
  rw [htake, hdrop, hfs]
  simp only [hie, Bool.false_and, Bool.false_eq_true, if_false]
  rw [parseExp_stopper t h4, applyExp_zero]

/-- Evaluating `parseUnsigned` on an integer literal (no decimal point) followed by
stopper characters reads exactly the literal's value. -/
theorem parseUnsigned_intLit (ip t : List Char)
    (h1 : ip ≠ []) (h2 : ∀ c ∈ ip, c.isDigit = true) (h4 : ∀ c ∈ t, isStopper c = true) :
    parseUnsigned (ip ++ t) = some (decValue ip []) := by
  obtain ⟨htake, hdrop⟩ : (ip ++ t).takeWhile Char.isDigit = ip ∧
      (ip ++ t).dropWhile Char.isDigit = t := by
    cases t with
    | nil =>
      have hall := takeWhile_all Char.isDigit (ip ++ []) (by simpa using h2)
      exact ⟨by simpa using hall.1, by simpa using hall.2⟩
    | cons c0 t' =>
      exact takeWhile_app_stop Char.isDigit ip c0 t' h2
        (isStopper_spec (h4 c0 (List.mem_cons_self c0 t'))).1
  have hfs : fracSplit t = ([], t) := by
    cases t with
    | nil => rfl
    | cons c0 t' =>
      have hc0 := (isStopper_spec (h4 c0 (List.mem_cons_self c0 t'))).2.1
      show (if c0 = '.' then
          (t'.takeWhile Char.isDigit, t'.dropWhile Char.isDigit)
        else ([], c0 :: t')) = ([], c0 :: t')
      rw [if_neg hc0]
  have hie : ip.isEmpty = false := by
    cases ip with
    | nil => exact absurd rfl h1
    | cons _ _ => rfl
  unfold parseUnsigned
  rw [htake, hdrop, hfs]
  simp only [hie, Bool.false_and, Bool.false_eq_true, if_false]
  rw [parseExp_stopper t h4, applyExp_zero]

/-- Evaluating `parseFloat` on a decimal literal `ip.fp` followed by stopper
characters reads exactly the literal's value, junk or no junk. -/
theorem parseFloat_decimal (ip fp t : List Char)
    (h1 : ip ≠ []) (h2 : ∀ c ∈ ip, c.isDigit = true) (h3 : ∀ c ∈ fp, c.isDigit = true)
    (h4 : ∀ c ∈ t, isStopper c = true) :
    parseFloat ⟨ip ++ '.' :: (fp ++ t)⟩ = some (decValue ip fp) := by
  obtain ⟨d0, ip', rfl⟩ : ∃ d0 ip', ip = d0 :: ip' := by
    cases ip with
    | nil => exact absurd rfl h1
    | cons a b => exact ⟨a, b, rfl⟩
  have hd0 : Char.isDigit d0 = true := h2 d0 (List.mem_cons_self d0 ip')
  show parseSigned ((d0 :: (ip' ++ '.' :: (fp ++ t))).dropWhile isWsChar) = _
  rw [List.dropWhile_cons, if_neg (by simp [digit_not_ws hd0])]
  show (if d0 = '+' then parseUnsigned (ip' ++ '.' :: (fp ++ t))
      else if d0 = '-' then Option.map Neg.neg (parseUnsigned (ip' ++ '.' :: (fp ++ t)))
      else parseUnsigned (d0 :: (ip' ++ '.' :: (fp ++ t)))) = some (decValue (d0 :: ip') fp)
  rw [if_neg (digit_ne_plus hd0), if_neg (digit_ne_minus hd0)]
  exact parseUnsigned_decimal (d0 :: ip') fp t h1 h2 h3 h4

/-! ## Concrete evaluation lemmas -/

/-- Evaluation fact `parseFloat "3.5" = 3.5`. -/
theorem parseFloat_35 : parseFloat "3.5" = some (7/2) := by
  have h := parseFloat_decimal ['3'] ['5'] [] (by decide) (by decide) (by decide) (by decide)
  rw [List.append_nil] at h
  rw [show ("3.5" : String) = ⟨['3'] ++ '.' :: ['5']⟩ from rfl, h]
  unfold decValue
  rw [show digitsToNat (['3'] ++ ['5']) = 35 from by decide]
  norm_num

/-- Evaluation fact `parseFloat "2.1" = 2.1`. -/
theorem parseFloat_21 : parseFloat "2.1" = some (21/10) := by
  have h := parseFloat_decimal ['2'] ['1'] [] (by decide) (by decide) (by decide) (by decide)
  rw [List.append_nil] at h
  rw [show ("2.1" : String) = ⟨['2'] ++ '.' :: ['1']⟩ from rfl, h]
  unfold decValue
  rw [show digitsToNat (['2'] ++ ['1']) = 21 from by decide]
  norm_num

/-- Evaluating `parseFloat` on an integer literal followed by stopper characters. -/
theorem parseFloat_intLit (ip t : List Char)
    (h1 : ip ≠ []) (h2 : ∀ c ∈ ip, c.isDigit = true) (h4 : ∀ c ∈ t, isStopper c = true) :
    parseFloat ⟨ip ++ t⟩ = some (decValue ip []) := by
  obtain ⟨d0, ip', rfl⟩ : ∃ d0 ip', ip = d0 :: ip' := by
    cases ip with
    | nil => exact absurd rfl h1
    | cons a b => exact ⟨a, b, rfl⟩
  have hd0 : Char.isDigit d0 = true := h2 d0 (List.mem_cons_self d0 ip')
  show parseSigned ((d0 :: (ip' ++ t)).dropWhile isWsChar) = _
  rw [List.dropWhile_cons, if_neg (by simp [digit_not_ws hd0])]
  show (if d0 = '+' then parseUnsigned (ip' ++ t)
      else if d0 = '-' then Option.map Neg.neg (parseUnsigned (ip' ++ t))
      else parseUnsigned (d0 :: (ip' ++ t))) = some (decValue (d0 :: ip') [])
  rw [if_neg (digit_ne_plus hd0), if_neg (digit_ne_minus hd0)]
  exact parseUnsigned_intLit (d0 :: ip') t h1 h2 h4

/-- Evaluation fact `parseFloat "0" = 0`. -/
theorem parseFloat_0 : parseFloat "0" = some 0 := by
  have h := parseFloat_intLit ['0'] [] (by decide) (by decide) (by decide)
  rw [List.append_nil] at h
  rw [show ("0" : String) = ⟨['0']⟩ from rfl, h]
  unfold decValue
  rw [show digitsToNat (['0'] ++ []) = 0 from by decide]
  norm_num

/-! ## Claim theorems -/

/-- Claim C5: the confidence classifier `getScoreMeta` is total on the
integers and lands every score in exactly one of the three bands, with the
85/70 boundaries inclusive as stated: `score ≥ 85` gives "High Confidence",
`70 ≤ score < 85` gives "Moderate Review", and every other integer —
including negatives and values above 100 — falls through to
"Critical / Low Confidence"; there is no error path.  The boundary
instances 85, 84, 70, 69 follow from the three equivalences. -/
theorem getScoreMeta_bands (s : Int) :
    ((getScoreMeta s).label = "High Confidence" ∨ (getScoreMeta s).label = "Moderate Review" ∨
      (getScoreMeta s).label = "Critical / Low Confidence") ∧
    ((getScoreMeta s).label = "High Confidence" ↔ 85 ≤ s) ∧
    ((getScoreMeta s).label = "Moderate Review" ↔ 70 ≤ s ∧ s < 85) ∧
    ((getScoreMeta s).label = "Critical / Low Confidence" ↔ s < 70) := by
  unfold getScoreMeta
  by_cases h1 : s ≥ 85
  · rw [if_pos h1]
    exact ⟨Or.inl rfl, iff_of_true rfl h1,
      iff_of_false (by decide) (by omega), iff_of_false (by decide) (by omega)⟩
  · rw [if_neg h1]
    by_cases h2 : s ≥ 70
    · rw [if_pos h2]
      exact ⟨Or.inr (Or.inl rfl), iff_of_false (by decide) (by omega),
        iff_of_true rfl (by omega), iff_of_false (by decide) (by omega)⟩
    · rw [if_neg h2]
      exact ⟨Or.inr (Or.inr rfl), iff_of_false (by decide) (by omega),
        iff_of_false (by decide) (by omega), iff_of_true rfl (by omega)⟩

/-- Claim C7: `calculateSlack` returns the no-result sentinel (`null`, here
`none`) whenever at least one input fails to parse as a number; as a total
function it signals this through its return value only — there is no
exceptional exit. -/
theorem calculateSlack_parse_failure (limitStr actualStr name : String)
    (h : parseFloat limitStr = none ∨ parseFloat actualStr = none) :
    calculateSlack limitStr actualStr name = none := by
  unfold calculateSlack
  rcases h with h | h
  · rw [h]
  · rw [h]; cases parseFloat limitStr <;> rfl

/-- Witness for C7 at the concrete inputs `"abc"` (non-numeric) and `""`
(empty). -/
theorem calculateSlack_parse_failure_witness :
    calculateSlack "abc" "2.1" "Leverage Ratio" = none ∧
    calculateSlack "3.5" "" "Leverage Ratio" = none :=
  ⟨calculateSlack_parse_failure "abc" "2.1" "Leverage Ratio" (Or.inl rfl),
   calculateSlack_parse_failure "3.5" "" "Leverage Ratio" (Or.inr rfl)⟩

/-- Claim C4: on inputs that both parse, `calculateSlack` derives the
polarity case-insensitively from the clause name (a lower-cased name
containing "leverage" or "debt" gives a max/ceiling covenant, anything else
a min/floor covenant), computes `slack = limit - actual` (max) or
`actual - limit` (min), `percentage = (slack / denominator) * 100` under
JavaScript arithmetic — the finite rational value whenever the denominator
is nonzero — and `isSafe = (slack ≥ 0)`, so zero slack counts as
compliant. -/
theorem calculateSlack_spec (limitStr actualStr name : String) (limit actual : ℚ)
    (hl : parseFloat limitStr = some limit) (ha : parseFloat actualStr = some actual) :
    ∃ r, calculateSlack limitStr actualStr name = some r ∧
      r.isMax = (jsIncludes (jsToLowerCase name) "leverage" ||
                 jsIncludes (jsToLowerCase name) "debt") ∧
      r.slack = (if r.isMax then limit - actual else actual - limit) ∧
      r.percentage = (if r.isMax then jsMul100 (jsDiv r.slack limit)
                      else jsMul100 (jsDiv r.slack actual)) ∧
      (r.isMax = true → limit ≠ 0 → r.percentage = JsNum.finite (r.slack / limit * 100)) ∧
      (r.isMax = false → actual ≠ 0 → r.percentage = JsNum.finite (r.slack / actual * 100)) ∧
      (r.isSafe = true ↔ 0 ≤ r.slack) := by
  unfold calculateSlack
  rw [hl, ha]
  refine ⟨_, rfl, rfl, rfl, rfl, ?_, ?_, ?_⟩
  · intro hmx hz
    replace hmx : isMaxName name = true := hmx
    simp only [hmx, if_true]
    rw [jsMul100_jsDiv hz]
  · intro hmx hz
    replace hmx : isMaxName name = false := hmx
    simp only [hmx, Bool.false_eq_true, if_false]
    rw [jsMul100_jsDiv hz]
  · exact decide_eq_true_iff

/-- Witness for C4 at the spec scenario `computeSlack("3.5", "2.1",
"Leverage Ratio")`: type max, slack `1.4`, percentage `40`, safe. -/
theorem calculateSlack_spec_witness :
    (∃ r, calculateSlack "3.5" "2.1" "Leverage Ratio" = some r ∧
      r.isMax = (jsIncludes (jsToLowerCase "Leverage Ratio") "leverage" ||
                 jsIncludes (jsToLowerCase "Leverage Ratio") "debt") ∧
      r.slack = (if r.isMax then (7 : ℚ)/2 - 21/10 else (21 : ℚ)/10 - 7/2) ∧
      r.percentage = (if r.isMax then jsMul100 (jsDiv r.slack (7/2))
                      else jsMul100 (jsDiv r.slack (21/10))) ∧
      (r.isMax = true → (7 : ℚ)/2 ≠ 0 → r.percentage = JsNum.finite (r.slack / (7/2) * 100)) ∧
      (r.isMax = false → (21 : ℚ)/10 ≠ 0 → r.percentage = JsNum.finite (r.slack / (21/10) * 100)) ∧
      (r.isSafe = true ↔ 0 ≤ r.slack)) ∧
    calculateSlack "3.5" "2.1" "Leverage Ratio"
      = some { slack := 7/5, percentage := .finite 40, isSafe := true, isMax := true } := by
  constructor
  · exact calculateSlack_spec "3.5" "2.1" "Leverage Ratio" (7/2) (21/10) parseFloat_35 parseFloat_21
  · unfold calculateSlack
    rw [parseFloat_35, parseFloat_21]
    simp only [show isMaxName "Leverage Ratio" = true from by decide, if_true]
    rw [jsMul100_jsDiv (by norm_num)]
    norm_num

/-- Claim C8: when both inputs parse but the percentage denominator is zero
(`limit = 0` for a max-type name, `actual = 0` for a min-type name),
`calculateSlack` still returns a `SlackCalculation` — no exceptional exit —
whose percentage is a signed infinity or the `NaN` sentinel. -/
theorem calculateSlack_zero_denominator (limitStr actualStr name : String) (limit actual : ℚ)
    (hl : parseFloat limitStr = some limit) (ha : parseFloat actualStr = some actual)
    (hz : (if isMaxName name then limit else actual) = 0) :
    ∃ r, calculateSlack limitStr actualStr name = some r ∧
      (r.percentage = JsNum.posInf ∨ r.percentage = JsNum.negInf ∨ r.percentage = JsNum.nan) := by
  unfold calculateSlack
  rw [hl, ha]
  refine ⟨_, rfl, ?_⟩
  cases hmx : isMaxName name
  · rw [hmx] at hz
    simp only [Bool.false_eq_true, if_false] at hz
    simp only [hmx, Bool.false_eq_true, if_false, hz]
    exact jsMul100_jsDiv_zero _
  · rw [hmx] at hz
    simp only [if_true] at hz
    simp only [hmx, if_true, hz]
    exact jsMul100_jsDiv_zero _

/-- Witness for C8 at `limit = "0"`, `actual = "2.1"`, name
`"Leverage Ratio"` (a max-type covenant with a zero limit). -/
theorem calculateSlack_zero_denominator_witness :
    ∃ r, calculateSlack "0" "2.1" "Leverage Ratio" = some r ∧
      (r.percentage = JsNum.posInf ∨ r.percentage = JsNum.negInf ∨ r.percentage = JsNum.nan) :=
  calculateSlack_zero_denominator "0" "2.1" "Leverage Ratio" 0 (21/10)
    parseFloat_0 parseFloat_21
    (by rw [if_pos (show isMaxName "Leverage Ratio" = true from by decide)])

/-- Counterexample for claim C1: the raw clause of `payloadC1` has
`confidence_score = 60` (below the 75 threshold) and
`market_deviation = "Standard"`, so the claim requires the normalized
`reviewRequired` to be `true`; the normalizer instead copies the supplied
`review_required = false` through, and the normalized clause carries
`reviewRequired = false`. -/
theorem reviewRequired_not_recomputed_cex :
    (analyzeLoanDocument payloadC1 "doc").map
        (fun r => r.confidenceAnalysis.map
          (fun c => (c.confidenceScore, c.lmaComparison.deviations, c.reviewRequired)))
      = .ok [(60, "Standard", false)] := rfl

/-- Claim C1 (amended): the normalizer does not recompute the review flag;
for every payload whose `clauses` section is present, the normalized
`reviewRequired` flags are exactly the raw `review_required` flags, passed
through unchanged regardless of `confidence_score` and `market_deviation`. -/
theorem reviewRequired_passthrough (p : RawPayload) (cs : List RawClause) (text : String)
    (hc : p.clauses = some cs) (hra : p.riskAssessment ≠ none) :
    (analyzeLoanDocument p text).map
        (fun r => r.confidenceAnalysis.map (fun c => c.reviewRequired))
      = .ok (cs.map (fun c => c.review_required)) := by
  unfold analyzeLoanDocument
  rw [hc]
  cases hr : p.riskAssessment with
  | none => exact absurd hr hra
  | some ra =>
    show Except.ok ((cs.map normClause).map (fun c => c.reviewRequired)) = _
    rw [List.map_map]
    rfl

/-- Witness for the amended C1 at `payloadC1`. -/
theorem reviewRequired_passthrough_witness :
    (analyzeLoanDocument payloadC1 "doc").map
        (fun r => r.confidenceAnalysis.map (fun c => c.reviewRequired))
      = .ok ([cexClause].map (fun c => c.review_required)) :=
  reviewRequired_passthrough payloadC1 [cexClause] "doc" rfl (by simp [payloadC1])

/-- Counterexample for claim C2: two payloads with the same readiness score
90 but different supplied status strings normalize to results with those
two different statuses, so `status` is not a function of `score` and the
supplied status is not overridden by recomputation (a score of 90 is in the
≥ 85 tier, yet the first result shows "Not Execution Ready"). -/
theorem status_not_recomputed_cex :
    (analyzeLoanDocument (payloadC2 "Not Execution Ready") "d").map
        (fun r => r.dealReadiness.map (fun d => (d.score, d.status)))
      = .ok (some (90, "Not Execution Ready")) ∧
    (analyzeLoanDocument (payloadC2 "Execution Ready") "d").map
        (fun r => r.dealReadiness.map (fun d => (d.score, d.status)))
      = .ok (some (90, "Execution Ready")) := ⟨rfl, rfl⟩

/-- Claim C2 (amended): the normalizer passes the whole `dealReadiness`
section — its status string included — through unchanged, so the status
attached to a result is exactly the collaborator-supplied string, not a
recomputation from the score; only the pill colour class rendered next to
it (`getReadinessColorPill`) is derived from the numeric score. -/
theorem dealReadiness_passthrough (p : RawPayload) (text : String)
    (h : isOkE (analyzeLoanDocument p text) = true) :
    (analyzeLoanDocument p text).map (fun r => r.dealReadiness) = .ok p.dealReadiness := by
  unfold analyzeLoanDocument at *
  cases hc : p.clauses with
  | none => exact absurd h (by simp [isOkE, hc])
  | some cs =>
    cases hr : p.riskAssessment with
    | none => exact absurd h (by simp [isOkE, hc, hr])
    | some ra => rfl

/-- Witness for the amended C2 at `payloadC2 "Not Execution Ready"`. -/
theorem dealReadiness_passthrough_witness :
    (analyzeLoanDocument (payloadC2 "Not Execution Ready") "d").map (fun r => r.dealReadiness)
      = .ok (payloadC2 "Not Execution Ready").dealReadiness :=
  dealReadiness_passthrough (payloadC2 "Not Execution Ready") "d" rfl

/-- Counterexample for claim C3: `payloadNoDR` has no `dealReadiness`
section at all, yet normalization does not fail — it produces an
`AnalysisResult` whose `dealReadiness` is simply absent. -/
theorem missing_dealReadiness_no_failure_cex :
    isOkE (analyzeLoanDocument payloadNoDR "d") = true ∧
    (analyzeLoanDocument payloadNoDR "d").map (fun r => r.dealReadiness) = .ok none :=
  ⟨rfl, rfl⟩

/-- Claim C3 (amended): normalization aborts (with the single generic
failure, all-or-nothing) exactly when the `clauses` or `riskAssessment`
section is absent or unusable — those are the only sections the normalizer
dereferences; a payload missing `overview`, `dealReadiness` or
`commercialSummary` still normalizes, carrying the absent sections through
as absent. -/
theorem analyze_fails_iff (p : RawPayload) (text : String) :
    isOkE (analyzeLoanDocument p text) = false ↔
      (p.clauses = none ∨ p.riskAssessment = none) := by
  unfold analyzeLoanDocument isOkE
  cases hc : p.clauses <;> cases hr : p.riskAssessment <;> simp

/-- Counterexample for claim C6: an `overallRating` of `"Severe"` — a
non-empty string outside {Low, Medium, High} — is not coerced to
`"Medium"`; the `as any` cast lets it through unchanged. -/
theorem overallRating_not_coerced_cex :
    (analyzeLoanDocument payloadSevere "d").map (fun r => r.riskAssessment.overallRating)
      = .ok "Severe" := rfl

/-- Claim C6 (amended): the normalizer defaults only a *falsy*
`overallRating`: an absent rating or the empty string becomes `"Medium"`,
while every non-empty string — recognized member of {Low, Medium, High} or
not — is passed through unchanged; the summary is copied verbatim. -/
theorem overallRating_normalization (p : RawPayload) (ra : RawRiskAssessment) (text : String)
    (hra : p.riskAssessment = some ra) (hc : p.clauses ≠ none) :
    (analyzeLoanDocument p text).map (fun r => r.riskAssessment.overallRating)
      = .ok (match ra.overallRating with
             | none => "Medium"
             | some s => if s = "" then "Medium" else s) ∧
    (analyzeLoanDocument p text).map (fun r => r.riskAssessment.summary) = .ok ra.summary := by
  unfold analyzeLoanDocument
  cases hcl : p.clauses with
  | none => exact absurd hcl hc
  | some cs =>
    rw [hra]
    exact ⟨rfl, rfl⟩

/-- Witness for the amended C6 at `payloadC1` (rating supplied as
`"Low"`). -/
theorem overallRating_normalization_witness :
    (analyzeLoanDocument payloadC1 "d").map (fun r => r.riskAssessment.overallRating)
      = .ok (match cexRisk.overallRating with
             | none => "Medium"
             | some s => if s = "" then "Medium" else s) ∧
    (analyzeLoanDocument payloadC1 "d").map (fun r => r.riskAssessment.summary)
      = .ok cexRisk.summary :=
  overallRating_normalization payloadC1 cexRisk "d" rfl (by simp [payloadC1])

/-- Claim C9: whenever normalization produces a result, the result's
`rawText` is exactly — character for character — the original document text
handed to `analyzeLoanDocument`; the text is attached verbatim and never
re-parsed. -/
theorem normalize_rawText (p : RawPayload) (text : String)
    (h : isOkE (analyzeLoanDocument p text) = true) :
    (analyzeLoanDocument p text).map (fun r => r.rawText) = .ok text := by
  unfold analyzeLoanDocument at *
  cases hc : p.clauses with
  | none => exact absurd h (by simp [isOkE, hc])
  | some cs =>
    cases hr : p.riskAssessment with
    | none => exact absurd h (by simp [isOkE, hc, hr])
    | some ra => rfl

/-- Witness for C9 at `payloadC1` and a concrete document text. -/
theorem normalize_rawText_witness :
    (analyzeLoanDocument payloadC1 "FACILITY AGREEMENT dated 1 January 2025").map
        (fun r => r.rawText)
      = .ok "FACILITY AGREEMENT dated 1 January 2025" :=
  normalize_rawText payloadC1 "FACILITY AGREEMENT dated 1 January 2025" rfl

/-- Claim C10: a numeric input with trailing non-numeric characters (for
example `"3.5x"`) is not rejected: `calculateSlack` parses the leading
decimal prefix and computes the same non-`none` result as it would for the
bare prefix, silently ignoring the junk.  Stated for both inputs at once:
each input is a decimal literal `ip.fp` followed by a (possibly empty) tail
of non-numeric stopper characters. -/
theorem calculateSlack_trailing_junk
    (ip1 fp1 t1 ip2 fp2 t2 : List Char) (name : String)
    (h11 : ip1 ≠ []) (h12 : ∀ c ∈ ip1, c.isDigit = true) (h13 : ∀ c ∈ fp1, c.isDigit = true)
    (h14 : ∀ c ∈ t1, isStopper c = true)
    (h21 : ip2 ≠ []) (h22 : ∀ c ∈ ip2, c.isDigit = true) (h23 : ∀ c ∈ fp2, c.isDigit = true)
    (h24 : ∀ c ∈ t2, isStopper c = true) :
    calculateSlack ⟨ip1 ++ '.' :: (fp1 ++ t1)⟩ ⟨ip2 ++ '.' :: (fp2 ++ t2)⟩ name
      = calculateSlack ⟨ip1 ++ '.' :: fp1⟩ ⟨ip2 ++ '.' :: fp2⟩ name ∧
    calculateSlack ⟨ip1 ++ '.' :: (fp1 ++ t1)⟩ ⟨ip2 ++ '.' :: (fp2 ++ t2)⟩ name ≠ none := by
  have e1 := parseFloat_decimal ip1 fp1 t1 h11 h12 h13 h14
  have e1n := parseFloat_decimal ip1 fp1 [] h11 h12 h13 (by simp)
  have e2 := parseFloat_decimal ip2 fp2 t2 h21 h22 h23 h24
  have e2n := parseFloat_decimal ip2 fp2 [] h21 h22 h23 (by simp)
  rw [List.append_nil] at e1n e2n
  constructor
  · unfold calculateSlack
    rw [e1, e2, e1n, e2n]
  · unfold calculateSlack
    rw [e1, e2]
    simp

/-- Witness for C10 at limit text `"3.5x"` (prefix `3.5`, junk `x`) against
actual text `"2.1"` for a max-type covenant name. -/
theorem calculateSlack_trailing_junk_witness :
    calculateSlack ⟨['3'] ++ '.' :: (['5'] ++ ['x'])⟩ ⟨['2'] ++ '.' :: (['1'] ++ [])⟩
        "Leverage Ratio"
      = calculateSlack ⟨['3'] ++ '.' :: ['5']⟩ ⟨['2'] ++ '.' :: ['1']⟩ "Leverage Ratio" ∧
    calculateSlack ⟨['3'] ++ '.' :: (['5'] ++ ['x'])⟩ ⟨['2'] ++ '.' :: (['1'] ++ [])⟩
        "Leverage Ratio" ≠ none :=
  calculateSlack_trailing_junk ['3'] ['5'] ['x'] ['2'] ['1'] [] "Leverage Ratio"
    (by decide) (by decide) (by decide) (by decide)
    (by decide) (by decide) (by decide) (by decide)

end LoandocPro
